import Mathlib

/-!
Verification development for the terminal subsystem of the gterm editor:
the PTY session (src/terminal/mod.rs) and the session registry plus resize
policy (src/app.rs). OS-level effects (the PTY resize call, process spawn,
the reader thread's channel) are represented by explicit success flags and
explicit channel state; the vt100 screen-state collaborator is modelled
through the narrow interface the session uses (process, set_size,
scrollback, set_scrollback).
-/

namespace GTerm

/-! ## Key encoder (Terminal::send_key, src/terminal/mod.rs lines 130-193) -/

/-- UTF-8 encoding of a character, mirroring Rust char::encode_utf8. -/
def utf8Bytes (c : Char) : List Nat :=
  let n := c.toNat
  if n < 0x80 then [n]
  else if n < 0x800 then
    [0xC0 ||| (n >>> 6), 0x80 ||| (n &&& 0x3F)]
  else if n < 0x10000 then
    [0xE0 ||| (n >>> 12), 0x80 ||| ((n >>> 6) &&& 0x3F), 0x80 ||| (n &&& 0x3F)]
  else
    [0xF0 ||| (n >>> 18), 0x80 ||| ((n >>> 12) &&& 0x3F),
     0x80 ||| ((n >>> 6) &&& 0x3F), 0x80 ||| (n &&& 0x3F)]

/-- Rust char::is_ascii_lowercase. -/
def isAsciiLowercase (c : Char) : Bool := decide (97 ≤ c.toNat ∧ c.toNat ≤ 122)

/-- Rust char::is_ascii_uppercase. -/
def isAsciiUppercase (c : Char) : Bool := decide (65 ≤ c.toNat ∧ c.toNat ≤ 90)

/-- Byte value of Rust char::to_ascii_lowercase (as u8). -/
def toAsciiLowercase (c : Char) : Nat :=
  if isAsciiUppercase c then c.toNat + 32 else c.toNat

/-- Logical keys, mirroring the crossterm KeyCode cases send_key matches on;
Other stands for every unmatched case (falling to the final wildcard arm). -/
inductive KeyCode where
  | Char : Char → KeyCode
  | Enter : KeyCode
  | Backspace : KeyCode
  | Tab : KeyCode
  | Esc : KeyCode
  | Up : KeyCode
  | Down : KeyCode
  | Right : KeyCode
  | Left : KeyCode
  | Home : KeyCode
  | End : KeyCode
  | PageUp : KeyCode
  | PageDown : KeyCode
  | Delete : KeyCode
  | Insert : KeyCode
  | F : Nat → KeyCode
  | Other : KeyCode
deriving DecidableEq

/-- The two modifiers send_key inspects. -/
structure KeyModifiers where
  ctrl : Bool
  alt : Bool
deriving DecidableEq

def noMods : KeyModifiers := ⟨false, false⟩

/-- The F(1)..F(12) arms of the send_key match: each function key's fixed
sequence, nothing for any other index (which falls to the wildcard arm). -/
def fKeyBytes (n : Nat) : List Nat :=
  if n = 1 then [0x1B, 0x4F, 0x50]
  else if n = 2 then [0x1B, 0x4F, 0x51]
  else if n = 3 then [0x1B, 0x4F, 0x52]
  else if n = 4 then [0x1B, 0x4F, 0x53]
  else if n = 5 then [0x1B, 0x5B, 0x31, 0x35, 0x7E]
  else if n = 6 then [0x1B, 0x5B, 0x31, 0x37, 0x7E]
  else if n = 7 then [0x1B, 0x5B, 0x31, 0x38, 0x7E]
  else if n = 8 then [0x1B, 0x5B, 0x31, 0x39, 0x7E]
  else if n = 9 then [0x1B, 0x5B, 0x32, 0x30, 0x7E]
  else if n = 10 then [0x1B, 0x5B, 0x32, 0x31, 0x7E]
  else if n = 11 then [0x1B, 0x5B, 0x32, 0x33, 0x7E]
  else if n = 12 then [0x1B, 0x5B, 0x32, 0x34, 0x7E]
  else []

/-- The KeyCode::Char(c) arm of send_key: Ctrl+letter yields one control
byte (Ctrl tested first, so it wins over Alt); otherwise Alt prefixes ESC
to the character's UTF-8 bytes; otherwise the plain UTF-8 bytes. -/
def charKeyBytes (c : Char) (m : KeyModifiers) : List Nat :=
  if m.ctrl && (isAsciiLowercase c || isAsciiUppercase c) then
    [toAsciiLowercase c - 97 + 1]
  else if m.alt then
    0x1B :: utf8Bytes c
  else
    utf8Bytes c

/-- The exact bytes Terminal::send_key writes to the PTY for a key and
modifier set; an unmapped key writes nothing. Byte-for-byte from the match
in src/terminal/mod.rs lines 140-192, with the function-key and character
arms named above. -/
def sendKeyBytes (key : KeyCode) (m : KeyModifiers) : List Nat :=
  match key with
  | .Enter => [0x0D]
  | .Backspace => [0x7F]
  | .Tab => [0x09]
  | .Esc => [0x1B]
  | .Up => [0x1B, 0x5B, 0x41]
  | .Down => [0x1B, 0x5B, 0x42]
  | .Right => [0x1B, 0x5B, 0x43]
  | .Left => [0x1B, 0x5B, 0x44]
  | .Home => [0x1B, 0x5B, 0x48]
  | .End => [0x1B, 0x5B, 0x46]
  | .PageUp => [0x1B, 0x5B, 0x35, 0x7E]
  | .PageDown => [0x1B, 0x5B, 0x36, 0x7E]
  | .Delete => [0x1B, 0x5B, 0x33, 0x7E]
  | .Insert => [0x1B, 0x5B, 0x32, 0x7E]
  | .F n => fKeyBytes n
  | .Char c => charKeyBytes c m
  | .Other => []

/-! ## Screen state (the vt100 parser collaborator, through the interface of
src/terminal/mod.rs: process, set_size, screen().scrollback, set_scrollback;
set_scrollback clamps to the configured scrollback capacity per the
collaborator contract) -/

structure ParserState where
  rows : Nat
  cols : Nat
  /-- Configured scrollback capacity (1000 in Terminal::new). -/
  scrollbackCap : Nat
  /-- Current scrollback offset as reported by screen().scrollback(). -/
  scrollback : Nat
  /-- All bytes fed through process(), in order. -/
  log : List Nat
deriving DecidableEq

/-- parser.process(data): consumes bytes in order. -/
def ParserState.process (p : ParserState) (data : List Nat) : ParserState :=
  { p with log := p.log ++ data }

/-- parser.set_size(rows, cols). -/
def ParserState.set_size (p : ParserState) (rows cols : Nat) : ParserState :=
  { p with rows := rows, cols := cols }

/-- parser.set_scrollback(n), internally clamped to the configured capacity. -/
def ParserState.set_scrollback (p : ParserState) (n : Nat) : ParserState :=
  { p with scrollback := min n p.scrollbackCap }

/-! ## PTY session (struct Terminal, src/terminal/mod.rs) -/

structure Terminal where
  parser : ParserState
  /-- Size last successfully applied to the PTY master. -/
  ptyRows : Nat
  ptyCols : Nat
  /-- The local size fields Terminal.cols / Terminal.rows. -/
  cols : Nat
  rows : Nat
  scroll_offset : Nat
  /-- Chunks sent by the reader thread, not yet received (the mpsc channel). -/
  rxBuffered : List (List Nat)
  /-- True once the reader thread has exited and dropped its sender. -/
  rxDisconnected : Bool
deriving DecidableEq

/-- Terminal::new(cols, rows), the successful case: PTY sized (rows, cols),
parser with 1000 lines of scrollback, empty channel, offset 0. -/
def Terminal.new (cols rows : Nat) : Terminal :=
  { parser := { rows := rows, cols := cols, scrollbackCap := 1000,
                scrollback := 0, log := [] },
    ptyRows := rows, ptyCols := cols,
    cols := cols, rows := rows,
    scroll_offset := 0,
    rxBuffered := [], rxDisconnected := false }

/-- The try_recv drain loop of read_output: each buffered chunk, in channel
order, is fed to parser.process; the loop stops at Empty or Disconnected. -/
def drainLoop (p : ParserState) : List (List Nat) → ParserState
  | [] => p
  | d :: rest => drainLoop (p.process d) rest

/-- Terminal::read_output: non-blocking drain of all buffered channel
messages into the parser; returns Ok(()) in every case (the Bool is the
success of the returned Result). -/
def Terminal.read_output (t : Terminal) : Terminal × Bool :=
  ({ t with parser := drainLoop t.parser t.rxBuffered, rxBuffered := [] }, true)

/-- Terminal::resize(cols, rows). The local size fields are assigned first;
then the PTY master is resized (ptyOk tells whether the OS call succeeds;
on failure the error propagates out before the parser is touched); then the
parser is resized. The Bool result is the success of the returned Result. -/
def Terminal.resize (t : Terminal) (cols rows : Nat) (ptyOk : Bool) :
    Terminal × Bool :=
  let t := { t with cols := cols, rows := rows }
  if ptyOk then
    let t := { t with ptyCols := cols, ptyRows := rows }
    ({ t with parser := t.parser.set_size rows cols }, true)
  else
    (t, false)

/-- Terminal::scroll_up(lines): raise the parser scrollback by lines (the
parser clamps), then record the clamped value in scroll_offset. -/
def Terminal.scroll_up (t : Terminal) (lines : Nat) : Terminal :=
  let current := t.parser.scrollback
  let newOffset := current + lines
  let parser := t.parser.set_scrollback newOffset
  { t with parser := parser, scroll_offset := parser.scrollback }

/-- Terminal::scroll_down(lines): lower the parser scrollback by lines with
saturating subtraction, then record that (pre-clamp) value in
scroll_offset. -/
def Terminal.scroll_down (t : Terminal) (lines : Nat) : Terminal :=
  let current := t.parser.scrollback
  let newOffset := current - lines
  let parser := t.parser.set_scrollback newOffset
  { t with parser := parser, scroll_offset := newOffset }

/-! ## Session registry (App, src/app.rs lines 111-175 and 612-628) -/

structure App where
  terminals : List Terminal
  active_terminal : Nat
  /-- terminal_area as (width, height), when the layout has run. -/
  terminal_area : Option (Nat × Nat)
deriving DecidableEq

/-- The registry part of App::new: one terminal when the spawn succeeds,
none otherwise; active index 0; no layout area yet. -/
def App.new (spawnOk : Bool) : App :=
  { terminals := if spawnOk then [Terminal.new 80 24] else [],
    active_terminal := 0,
    terminal_area := none }

/-- App::new_terminal: rejected at 10 or more sessions; otherwise, when the
spawn succeeds, appends a fresh 80x24 session and makes it active. -/
def App.new_terminal (a : App) (spawnOk : Bool) : App :=
  if 10 ≤ a.terminals.length then a
  else if spawnOk then
    { a with terminals := a.terminals ++ [Terminal.new 80 24],
             active_terminal := (a.terminals ++ [Terminal.new 80 24]).length - 1 }
  else a

/-- App::close_terminal: no-op on an empty registry; otherwise removes the
active slot and re-clamps the active index to the new last session when it
fell at or past the new length (and the registry stayed non-empty). -/
def App.close_terminal (a : App) : App :=
  if a.terminals = [] then a
  else if (a.terminals.eraseIdx a.active_terminal).length ≤ a.active_terminal ∧
      a.terminals.eraseIdx a.active_terminal ≠ [] then
    { a with terminals := a.terminals.eraseIdx a.active_terminal,
             active_terminal :=
               (a.terminals.eraseIdx a.active_terminal).length - 1 }
  else
    { a with terminals := a.terminals.eraseIdx a.active_terminal }

/-- App::switch_terminal(index): takes effect only for an in-range index. -/
def App.switch_terminal (a : App) (index : Nat) : App :=
  if index < a.terminals.length then { a with active_terminal := index } else a

/-- App::next_terminal: advance with wraparound; no-op when empty. -/
def App.next_terminal (a : App) : App :=
  if a.terminals = [] then a
  else { a with active_terminal := (a.active_terminal + 1) % a.terminals.length }

/-- App::prev_terminal: retreat with wraparound; no-op when empty. -/
def App.prev_terminal (a : App) : App :=
  if a.terminals = [] then a
  else if a.active_terminal = 0 then
    { a with active_terminal := a.terminals.length - 1 }
  else
    { a with active_terminal := a.active_terminal - 1 }

/-- App::check_terminal_resize: with a laid-out area, computes the inner
size (height less 2 for border and tab bar, saturating) and resizes every
terminal whose size differs, but only when both inner dimensions are
positive; resize errors are discarded. -/
def App.check_terminal_resize (a : App) (ptyOk : Bool) : App :=
  match a.terminal_area with
  | none => a
  | some (width, height) =>
      let inner_cols := width
      let inner_rows := height - 2
      { a with terminals := a.terminals.map fun term =>
          if inner_cols ≠ term.cols ∨ inner_rows ≠ term.rows then
            if 0 < inner_cols ∧ 0 < inner_rows then
              (term.resize inner_cols inner_rows ptyOk).1
            else term
          else term }

/-- The registry invariant of the spec: empty, or the active index is valid. -/
def App.registryInv (a : App) : Prop :=
  a.terminals = [] ∨ a.active_terminal < a.terminals.length

instance (a : App) : Decidable a.registryInv := by
  unfold App.registryInv; infer_instance

/-- The mutating registry operations. -/
inductive RegOp where
  | create : Bool → RegOp
  | close : RegOp
  | switch : Nat → RegOp
  | next : RegOp
  | prev : RegOp

def App.applyOp (a : App) : RegOp → App
  | .create ok => a.new_terminal ok
  | .close => a.close_terminal
  | .switch i => a.switch_terminal i
  | .next => a.next_terminal
  | .prev => a.prev_terminal

def App.applyOps (a : App) (ops : List RegOp) : App :=
  ops.foldl App.applyOp a

/-- An empty capacity-10 registry. -/
def App.emptyApp : App :=
  { terminals := [], active_terminal := 0, terminal_area := none }

/-- n consecutive successful create calls. -/
def iterCreate : Nat → App → App
  | 0, a => a
  | n + 1, a => (iterCreate n a).new_terminal true

/-! ## Output pump (reader thread of Terminal::new, lines 61-79, plus the
read_output drain): a two-thread transition system over the SPSC channel -/

def flattenChunks : List (List Nat) → List Nat
  | [] => []
  | d :: rest => d ++ flattenChunks rest

/-- Joint state of the pump thread and the UI thread: chunks the child has
produced but the pump has not yet read, chunks sent on the channel and not
yet received, and the bytes already applied to the screen state. -/
structure PumpState where
  pending : List (List Nat)
  channel : List (List Nat)
  applied : List Nat
deriving DecidableEq

/-- One step of either thread: the pump reads the next chunk and sends it
(FIFO append at the tail), or the UI thread receives the head chunk and
feeds it to the parser. -/
inductive PumpStep : PumpState → PumpState → Prop where
  | produce (d : List Nat) (p c l) :
      PumpStep ⟨d :: p, c, l⟩ ⟨p, c ++ [d], l⟩
  | consume (d : List Nat) (p c l) :
      PumpStep ⟨p, d :: c, l⟩ ⟨p, c, l ++ d⟩

/-! ## Theorems -/

/-- C4: for every ASCII letter c, send_key(Char c) with Ctrl held writes the
single control byte lowercase(c) minus 97 plus 1, a value between 1 and 26,
whether or not Alt is held as well; and for every character (printable ones
included) with Alt held and Ctrl not held, send_key writes ESC followed by
the character's UTF-8 bytes. -/
theorem c4_ctrl_alt_encoding (c : Char) (alt : Bool)
    (hc : (isAsciiLowercase c || isAsciiUppercase c) = true) :
    sendKeyBytes (KeyCode.Char c) ⟨true, alt⟩ = [toAsciiLowercase c - 97 + 1] ∧
    1 ≤ toAsciiLowercase c - 97 + 1 ∧ toAsciiLowercase c - 97 + 1 ≤ 26 ∧
    (∀ d : Char, sendKeyBytes (KeyCode.Char d) ⟨false, true⟩ =
      0x1B :: utf8Bytes d) := by
  have hb : 1 ≤ toAsciiLowercase c - 97 + 1 ∧ toAsciiLowercase c - 97 + 1 ≤ 26 := by
    simp only [isAsciiLowercase, isAsciiUppercase, Bool.or_eq_true,
      decide_eq_true_eq] at hc
    unfold toAsciiLowercase isAsciiUppercase
    split <;> rename_i hs <;> simp only [decide_eq_true_eq] at hs <;>
      rcases hc with h | h <;> omega
  refine ⟨?_, hb.1, hb.2, fun d => ?_⟩
  · show charKeyBytes c ⟨true, alt⟩ = _
    simp only [charKeyBytes, hc, Bool.true_and, if_true]
  · show charKeyBytes d ⟨false, true⟩ = _
    simp only [charKeyBytes, Bool.false_and, Bool.false_eq_true, if_false,
      if_true]

theorem c4_witness :
    sendKeyBytes (KeyCode.Char 'A') ⟨true, true⟩ =
      [toAsciiLowercase 'A' - 97 + 1] ∧
    1 ≤ toAsciiLowercase 'A' - 97 + 1 ∧ toAsciiLowercase 'A' - 97 + 1 ≤ 26 ∧
    (∀ d : Char, sendKeyBytes (KeyCode.Char d) ⟨false, true⟩ =
      0x1B :: utf8Bytes d) :=
  c4_ctrl_alt_encoding 'A' true (by decide)

/-- A function key index past 12 falls through every branch and is a no-op. -/
theorem fKeyBytes_of_big (n : Nat) (h : 13 ≤ n) : fKeyBytes n = [] := by
  unfold fKeyBytes
  rw [if_neg (by omega : ¬ n = 1), if_neg (by omega : ¬ n = 2),
    if_neg (by omega : ¬ n = 3), if_neg (by omega : ¬ n = 4),
    if_neg (by omega : ¬ n = 5), if_neg (by omega : ¬ n = 6),
    if_neg (by omega : ¬ n = 7), if_neg (by omega : ¬ n = 8),
    if_neg (by omega : ¬ n = 9), if_neg (by omega : ¬ n = 10),
    if_neg (by omega : ¬ n = 11), if_neg (by omega : ¬ n = 12)]

/-- No function key index is encoded with xterm number 16 or 22. -/
theorem sendKeyBytes_F_gap (n : Nat) :
    sendKeyBytes (KeyCode.F n) noMods ≠ [0x1B, 0x5B, 0x31, 0x36, 0x7E] ∧
    sendKeyBytes (KeyCode.F n) noMods ≠ [0x1B, 0x5B, 0x32, 0x32, 0x7E] := by
  show fKeyBytes n ≠ [0x1B, 0x5B, 0x31, 0x36, 0x7E] ∧
    fKeyBytes n ≠ [0x1B, 0x5B, 0x32, 0x32, 0x7E]
  by_cases h : 13 ≤ n
  · rw [fKeyBytes_of_big n h]
    exact ⟨by decide, by decide⟩
  · interval_cases n <;> exact ⟨by decide, by decide⟩

/-- C5: with no modifiers every named key maps to its fixed sequence from
the spec table, and no function key is encoded with xterm number 16 or 22
(the gap). -/
theorem c5_named_keys :
    sendKeyBytes KeyCode.Enter noMods = [0x0D] ∧
    sendKeyBytes KeyCode.Backspace noMods = [0x7F] ∧
    sendKeyBytes KeyCode.Tab noMods = [0x09] ∧
    sendKeyBytes KeyCode.Esc noMods = [0x1B] ∧
    sendKeyBytes KeyCode.Up noMods = [0x1B, 0x5B, 0x41] ∧
    sendKeyBytes KeyCode.Down noMods = [0x1B, 0x5B, 0x42] ∧
    sendKeyBytes KeyCode.Right noMods = [0x1B, 0x5B, 0x43] ∧
    sendKeyBytes KeyCode.Left noMods = [0x1B, 0x5B, 0x44] ∧
    sendKeyBytes KeyCode.Home noMods = [0x1B, 0x5B, 0x48] ∧
    sendKeyBytes KeyCode.End noMods = [0x1B, 0x5B, 0x46] ∧
    sendKeyBytes KeyCode.PageUp noMods = [0x1B, 0x5B, 0x35, 0x7E] ∧
    sendKeyBytes KeyCode.PageDown noMods = [0x1B, 0x5B, 0x36, 0x7E] ∧
    sendKeyBytes KeyCode.Delete noMods = [0x1B, 0x5B, 0x33, 0x7E] ∧
    sendKeyBytes KeyCode.Insert noMods = [0x1B, 0x5B, 0x32, 0x7E] ∧
    sendKeyBytes (KeyCode.F 1) noMods = [0x1B, 0x4F, 0x50] ∧
    sendKeyBytes (KeyCode.F 2) noMods = [0x1B, 0x4F, 0x51] ∧
    sendKeyBytes (KeyCode.F 3) noMods = [0x1B, 0x4F, 0x52] ∧
    sendKeyBytes (KeyCode.F 4) noMods = [0x1B, 0x4F, 0x53] ∧
    sendKeyBytes (KeyCode.F 5) noMods = [0x1B, 0x5B, 0x31, 0x35, 0x7E] ∧
    sendKeyBytes (KeyCode.F 6) noMods = [0x1B, 0x5B, 0x31, 0x37, 0x7E] ∧
    sendKeyBytes (KeyCode.F 7) noMods = [0x1B, 0x5B, 0x31, 0x38, 0x7E] ∧
    sendKeyBytes (KeyCode.F 8) noMods = [0x1B, 0x5B, 0x31, 0x39, 0x7E] ∧
    sendKeyBytes (KeyCode.F 9) noMods = [0x1B, 0x5B, 0x32, 0x30, 0x7E] ∧
    sendKeyBytes (KeyCode.F 10) noMods = [0x1B, 0x5B, 0x32, 0x31, 0x7E] ∧
    sendKeyBytes (KeyCode.F 11) noMods = [0x1B, 0x5B, 0x32, 0x33, 0x7E] ∧
    sendKeyBytes (KeyCode.F 12) noMods = [0x1B, 0x5B, 0x32, 0x34, 0x7E] ∧
    (∀ n : Nat,
      sendKeyBytes (KeyCode.F n) noMods ≠ [0x1B, 0x5B, 0x31, 0x36, 0x7E] ∧
      sendKeyBytes (KeyCode.F n) noMods ≠ [0x1B, 0x5B, 0x32, 0x32, 0x7E]) :=
  ⟨rfl, rfl, rfl, rfl, rfl, rfl, rfl, rfl, rfl, rfl, rfl, rfl, rfl, rfl,
   rfl, rfl, rfl, rfl, rfl, rfl, rfl, rfl, rfl, rfl, rfl, rfl,
   fun n => sendKeyBytes_F_gap n⟩

/-- C10: for every character that is not an ASCII letter, Ctrl is ignored:
with Ctrl held and Alt not held send_key writes the plain UTF-8 bytes, and
with both Ctrl and Alt held it writes ESC followed by the UTF-8 bytes. -/
theorem c10_ctrl_nonletter (c : Char)
    (hc : (isAsciiLowercase c || isAsciiUppercase c) = false) :
    sendKeyBytes (KeyCode.Char c) ⟨true, false⟩ = utf8Bytes c ∧
    sendKeyBytes (KeyCode.Char c) ⟨true, true⟩ = 0x1B :: utf8Bytes c := by
  constructor
  · show charKeyBytes c ⟨true, false⟩ = _
    simp only [charKeyBytes, hc, Bool.true_and, Bool.false_eq_true, if_false]
  · show charKeyBytes c ⟨true, true⟩ = _
    simp only [charKeyBytes, hc, Bool.true_and, Bool.false_eq_true, if_false,
      if_true]

theorem c10_witness :
    sendKeyBytes (KeyCode.Char '1') ⟨true, false⟩ = utf8Bytes '1' ∧
    sendKeyBytes (KeyCode.Char '1') ⟨true, true⟩ = 0x1B :: utf8Bytes '1' :=
  c10_ctrl_nonletter '1' (by decide)

/-- C1 fails as stated: Terminal::resize applies a zero size to the local
fields unconditionally (whether or not the OS call succeeds), and with a
successful OS call it also resizes the screen state to zero. -/
theorem c1_counterexample :
    (Terminal.new 80 24).cols = 80 ∧ (Terminal.new 80 24).rows = 24 ∧
    ((Terminal.new 80 24).resize 0 24 true).1.cols = 0 ∧
    ((Terminal.new 80 24).resize 0 24 false).1.cols = 0 ∧
    ((Terminal.new 80 24).resize 24 0 true).1.rows = 0 ∧
    ((Terminal.new 80 24).resize 0 24 true).1.parser.cols = 0 :=
  ⟨rfl, rfl, rfl, rfl, rfl, rfl⟩

/-- C1 amended: the zero-size guard lives in the caller,
App::check_terminal_resize, not in Terminal::resize. When the laid-out
area has zero width, or height at most 2 (so the inner height saturates to
zero), check_terminal_resize leaves the whole App unchanged: no session's
size fields, PTY or screen state are touched. Terminal::resize itself
overwrites the size fields unconditionally. -/
theorem c1_amended (a : App) (ok : Bool) (w h : Nat)
    (harea : a.terminal_area = some (w, h)) (hz : w = 0 ∨ h ≤ 2) :
    a.check_terminal_resize ok = a ∧
    (∀ (t : Terminal) (c r : Nat),
      ((t.resize c r ok).1).cols = c ∧ ((t.resize c r ok).1).rows = r) := by
  constructor
  · have hguard : ¬ (0 < w ∧ 0 < h - 2) := by omega
    simp only [App.check_terminal_resize, harea, hguard, if_false, ite_self,
      List.map_id']
    rw [← harea]
  · intro t c r
    cases ok <;> simp [Terminal.resize]

theorem c1_witness :
    (App.mk [Terminal.new 80 24] 0 (some (0, 10))).check_terminal_resize true =
      App.mk [Terminal.new 80 24] 0 (some (0, 10)) ∧
    (∀ (t : Terminal) (c r : Nat),
      ((t.resize c r true).1).cols = c ∧ ((t.resize c r true).1).rows = r) :=
  c1_amended (App.mk [Terminal.new 80 24] 0 (some (0, 10))) true 0 10 rfl
    (Or.inl rfl)

/-- C2 fails as stated: when the OS resize call fails, the session's size
fields have already been overwritten with the requested size, because
Terminal::resize assigns them before making the OS call. -/
theorem c2_counterexample :
    ((Terminal.new 80 24).resize 100 50 false).2 = false ∧
    (Terminal.new 80 24).cols = 80 ∧ (Terminal.new 80 24).rows = 24 ∧
    ((Terminal.new 80 24).resize 100 50 false).1.cols = 100 ∧
    ((Terminal.new 80 24).resize 100 50 false).1.rows = 50 :=
  ⟨rfl, rfl, rfl, rfl, rfl⟩

/-- C2 amended: on a failed OS resize the call reports failure and the
cols and rows fields hold the requested (new) size, the local update having
preceded the OS call; the PTY size and the screen state do retain their
previous values, since the error propagates before they are touched. -/
theorem c2_amended (t : Terminal) (c r : Nat) :
    (t.resize c r false).2 = false ∧
    (t.resize c r false).1.cols = c ∧ (t.resize c r false).1.rows = r ∧
    (t.resize c r false).1.ptyCols = t.ptyCols ∧
    (t.resize c r false).1.ptyRows = t.ptyRows ∧
    (t.resize c r false).1.parser = t.parser := by
  simp [Terminal.resize]

/-- C6: from a session whose recorded offset agrees with the screen state,
scroll_up(n) followed by scroll_down(n) restores the offset whenever the
raised offset stays within the scrollback capacity; and scroll_down
saturates at zero: from offset 0 any scroll_down leaves 0 (offsets are
naturals, never negative). -/
theorem c6_scroll_round_trip (t u : Terminal) (n m : Nat)
    (h1 : t.parser.scrollback = t.scroll_offset)
    (h2 : t.scroll_offset + n ≤ t.parser.scrollbackCap)
    (h3 : u.parser.scrollback = 0) :
    ((t.scroll_up n).scroll_down n).scroll_offset = t.scroll_offset ∧
    ((t.scroll_up n).scroll_down n).parser.scrollback = t.parser.scrollback ∧
    (u.scroll_down m).scroll_offset = 0 ∧
    (u.scroll_down m).parser.scrollback = 0 := by
  refine ⟨?_, ?_, ?_, ?_⟩ <;>
    simp only [Terminal.scroll_up, Terminal.scroll_down,
      ParserState.set_scrollback] <;>
    omega

theorem c6_witness :
    (((Terminal.new 80 24).scroll_up 5).scroll_down 5).scroll_offset =
      (Terminal.new 80 24).scroll_offset ∧
    (((Terminal.new 80 24).scroll_up 5).scroll_down 5).parser.scrollback =
      (Terminal.new 80 24).parser.scrollback ∧
    ((Terminal.new 80 24).scroll_down 7).scroll_offset = 0 ∧
    ((Terminal.new 80 24).scroll_down 7).parser.scrollback = 0 :=
  c6_scroll_round_trip (Terminal.new 80 24) (Terminal.new 80 24) 5 7
    rfl (by decide) rfl

/-- Draining the channel feeds every buffered chunk to the parser in
order. -/
theorem drainLoop_log (ds : List (List Nat)) (p : ParserState) :
    (drainLoop p ds).log = p.log ++ flattenChunks ds := by
  induction ds generalizing p with
  | nil => simp [drainLoop, flattenChunks]
  | cons d rest ih =>
      simp [drainLoop, flattenChunks, ih, ParserState.process,
        List.append_assoc]

/-- C8: read_output always returns success: it applies every buffered
chunk to the screen state in order and empties the channel, and on an
already-empty channel (in particular a disconnected one with nothing
buffered) it leaves the session entirely unchanged. -/
theorem c8_read_output_total (t : Terminal) :
    (t.read_output).2 = true ∧
    (t.read_output).1.parser.log = t.parser.log ++ flattenChunks t.rxBuffered ∧
    (t.read_output).1.rxBuffered = [] ∧
    (t.rxBuffered = [] → (t.read_output).1 = t) := by
  refine ⟨rfl, drainLoop_log t.rxBuffered t.parser, rfl, ?_⟩
  intro he
  obtain ⟨p, pr, pc, cl, rw, so, rx, rd⟩ := t
  simp only at he
  subst he
  rfl

theorem c8_witness :
    ((Terminal.new 80 24).read_output).2 = true ∧
    ((Terminal.new 80 24).read_output).1.parser.log =
      (Terminal.new 80 24).parser.log ++
        flattenChunks (Terminal.new 80 24).rxBuffered ∧
    ((Terminal.new 80 24).read_output).1.rxBuffered = [] ∧
    ((Terminal.new 80 24).rxBuffered = [] →
      ((Terminal.new 80 24).read_output).1 = Terminal.new 80 24) :=
  c8_read_output_total (Terminal.new 80 24)

/-- new_terminal preserves the registry invariant. -/
theorem inv_new_terminal (a : App) (ok : Bool) (h : a.registryInv) :
    (a.new_terminal ok).registryInv := by
  unfold App.new_terminal App.registryInv at *
  split_ifs with h1 h2
  · exact h
  · right
    simp
  · exact h

/-- close_terminal establishes the registry invariant unconditionally. -/
theorem inv_close_terminal (a : App) : (a.close_terminal).registryInv := by
  unfold App.close_terminal App.registryInv
  split_ifs with h1 h2
  · left; exact h1
  · right
    have hpos : 0 < (a.terminals.eraseIdx a.active_terminal).length :=
      List.length_pos.mpr h2.2
    simp only
    omega
  · rcases not_and_or.mp h2 with h3 | h3
    · right
      simp only
      omega
    · left
      exact not_not.mp h3

/-- switch_terminal preserves the registry invariant. -/
theorem inv_switch_terminal (a : App) (i : Nat) (h : a.registryInv) :
    (a.switch_terminal i).registryInv := by
  unfold App.switch_terminal App.registryInv at *
  split_ifs with h1
  · right
    simpa using h1
  · exact h

/-- next_terminal preserves the registry invariant. -/
theorem inv_next_terminal (a : App) (_h : a.registryInv) :
    (a.next_terminal).registryInv := by
  unfold App.next_terminal App.registryInv at *
  split_ifs with h1
  · left; exact h1
  · right
    have hpos : 0 < a.terminals.length :=
      List.length_pos.mpr h1
    simpa using Nat.mod_lt _ hpos

/-- prev_terminal preserves the registry invariant. -/
theorem inv_prev_terminal (a : App) (h : a.registryInv) :
    (a.prev_terminal).registryInv := by
  unfold App.prev_terminal App.registryInv at *
  split_ifs with h1 h2
  · left; exact h1
  · right
    have hpos : 0 < a.terminals.length := List.length_pos.mpr h1
    simp only
    omega
  · rcases h with h3 | h3
    · exact absurd h3 h1
    · right
      simp only
      omega

/-- Every registry operation preserves the invariant. -/
theorem inv_applyOp (a : App) (op : RegOp) (h : a.registryInv) :
    (a.applyOp op).registryInv := by
  cases op with
  | create ok => exact inv_new_terminal a ok h
  | close => exact inv_close_terminal a
  | switch i => exact inv_switch_terminal a i h
  | next => exact inv_next_terminal a h
  | prev => exact inv_prev_terminal a h

/-- Any sequence of registry operations preserves the invariant. -/
theorem inv_applyOps (ops : List RegOp) (a : App) (h : a.registryInv) :
    (a.applyOps ops).registryInv := by
  induction ops generalizing a with
  | nil => exact h
  | cons op rest ih => exact ih (a.applyOp op) (inv_applyOp a op h)

/-- The initial application state satisfies the invariant. -/
theorem inv_app_new (spawnOk : Bool) : (App.new spawnOk).registryInv := by
  cases spawnOk <;> simp [App.new, App.registryInv]

/-- C3: from the initial state every sequence of registry operations
maintains the invariant (empty, or active index in range); and close on a
registry of more than one session removes exactly one session, leaves the
active index valid, and re-clamps it to the new last session whenever it
fell at or past the new length. -/
theorem c3_registry_invariant (spawnOk : Bool) (ops : List RegOp) (a : App)
    (ha : 1 < a.terminals.length) (hinv : a.registryInv) :
    ((App.new spawnOk).applyOps ops).registryInv ∧
    (a.close_terminal).terminals.length = a.terminals.length - 1 ∧
    (a.close_terminal).active_terminal < (a.close_terminal).terminals.length ∧
    ((a.close_terminal).terminals.length ≤ a.active_terminal →
      (a.close_terminal).active_terminal =
        (a.close_terminal).terminals.length - 1) := by
  have hne : a.terminals ≠ [] := by
    intro h0
    rw [h0] at ha
    simp at ha
  have hactive : a.active_terminal < a.terminals.length := by
    rcases hinv with h0 | h0
    · exact absurd h0 hne
    · exact h0
  have hts_len : (a.terminals.eraseIdx a.active_terminal).length =
      a.terminals.length - 1 := by
    rw [List.length_eraseIdx]
    simp [hactive]
  have hts_ne : a.terminals.eraseIdx a.active_terminal ≠ [] := by
    intro h0
    rw [h0] at hts_len
    simp at hts_len
    omega
  refine ⟨inv_applyOps ops (App.new spawnOk) (inv_app_new spawnOk), ?_⟩
  unfold App.close_terminal
  rw [if_neg hne]
  split_ifs with hc
  · refine ⟨hts_len, ?_, fun _ => rfl⟩
    simp only
    have hpos : 0 < (a.terminals.eraseIdx a.active_terminal).length :=
      List.length_pos.mpr hc.2
    omega
  · rcases not_and_or.mp hc with h3 | h3
    · refine ⟨hts_len, by simpa using Nat.lt_of_not_le h3, fun hle => ?_⟩
      simp only at hle
      omega
    · exact absurd (not_not.mp h3) hts_ne

theorem c3_witness :
    ((App.new true).applyOps [RegOp.create true, RegOp.next,
      RegOp.close]).registryInv ∧
    ((App.mk [Terminal.new 80 24, Terminal.new 80 24] 1
        none).close_terminal).terminals.length =
      (App.mk [Terminal.new 80 24, Terminal.new 80 24] 1 none).terminals.length
        - 1 ∧
    ((App.mk [Terminal.new 80 24, Terminal.new 80 24] 1
        none).close_terminal).active_terminal <
      ((App.mk [Terminal.new 80 24, Terminal.new 80 24] 1
        none).close_terminal).terminals.length ∧
    (((App.mk [Terminal.new 80 24, Terminal.new 80 24] 1
        none).close_terminal).terminals.length ≤
        (App.mk [Terminal.new 80 24, Terminal.new 80 24] 1
          none).active_terminal →
      ((App.mk [Terminal.new 80 24, Terminal.new 80 24] 1
        none).close_terminal).active_terminal =
      ((App.mk [Terminal.new 80 24, Terminal.new 80 24] 1
        none).close_terminal).terminals.length - 1) :=
  c3_registry_invariant true [RegOp.create true, RegOp.next, RegOp.close]
    (App.mk [Terminal.new 80 24, Terminal.new 80 24] 1 none)
    (by decide) (Or.inr (by decide))

/-- C7: below the cap, create appends one session and makes it active (the
new index is the old length); at the cap (10 or more sessions) create is
rejected and the App is entirely unchanged; ten consecutive creates on an
empty registry yield exactly k sessions after the k-th, and an eleventh
changes nothing. -/
theorem c7_capacity (a : App) (hlen : a.terminals.length < 10) :
    (a.new_terminal true).terminals = a.terminals ++ [Terminal.new 80 24] ∧
    (a.new_terminal true).active_terminal = a.terminals.length ∧
    (∀ (b : App) (ok : Bool), 10 ≤ b.terminals.length → b.new_terminal ok = b) ∧
    (∀ k : Nat, k ≤ 10 → (iterCreate k App.emptyApp).terminals.length = k) ∧
    iterCreate 11 App.emptyApp = iterCreate 10 App.emptyApp := by
  have hno : ¬ 10 ≤ a.terminals.length := by omega
  refine ⟨?_, ?_, ?_, ?_, rfl⟩
  · simp [App.new_terminal, hno]
  · simp [App.new_terminal, hno]
  · intro b ok hb
    unfold App.new_terminal
    rw [if_pos hb]
  · intro k hk
    interval_cases k <;> rfl

theorem c7_witness :
    (App.emptyApp.new_terminal true).terminals =
      App.emptyApp.terminals ++ [Terminal.new 80 24] ∧
    (App.emptyApp.new_terminal true).active_terminal =
      App.emptyApp.terminals.length ∧
    (∀ (b : App) (ok : Bool), 10 ≤ b.terminals.length → b.new_terminal ok = b) ∧
    (∀ k : Nat, k ≤ 10 → (iterCreate k App.emptyApp).terminals.length = k) ∧
    iterCreate 11 App.emptyApp = iterCreate 10 App.emptyApp :=
  c7_capacity App.emptyApp (by decide)

/-- flattenChunks distributes over append. -/
theorem flattenChunks_append (xs ys : List (List Nat)) :
    flattenChunks (xs ++ ys) = flattenChunks xs ++ flattenChunks ys := by
  induction xs with
  | nil => simp [flattenChunks]
  | cons d rest ih => simp [flattenChunks, ih, List.append_assoc]

/-- Each pump or drain step conserves the bytes in flight and their order. -/
theorem pumpStep_preserves (s s' : PumpState) (h : PumpStep s s') :
    s'.applied ++ flattenChunks s'.channel ++ flattenChunks s'.pending =
      s.applied ++ flattenChunks s.channel ++ flattenChunks s.pending := by
  cases h with
  | produce d p c l =>
      simp [flattenChunks_append, flattenChunks, List.append_assoc]
  | consume d p c l =>
      simp [flattenChunks, List.append_assoc]

/-- C9: for any interleaving of the pump thread (produce) and the UI
thread's drain (consume) starting from the child's chunk sequence, the
bytes applied to the screen state followed by those still in flight are
exactly the child's bytes in order; once everything is produced and
drained, the screen state received exactly the child's byte sequence: no
loss, duplication, or reordering. -/
theorem c9_pump_ordering (chunks : List (List Nat)) (s : PumpState)
    (h : Relation.ReflTransGen PumpStep ⟨chunks, [], []⟩ s) :
    s.applied ++ flattenChunks s.channel ++ flattenChunks s.pending =
      flattenChunks chunks ∧
    (s.pending = [] → s.channel = [] → s.applied = flattenChunks chunks) := by
  have main : s.applied ++ flattenChunks s.channel ++ flattenChunks s.pending =
      flattenChunks chunks := by
    induction h with
    | refl => simp [flattenChunks]
    | tail hab hbc ih => rw [pumpStep_preserves _ _ hbc]; exact ih
  refine ⟨main, fun hp hc => ?_⟩
  rw [hp, hc] at main
  simpa [flattenChunks] using main

theorem c9_witness :
    (PumpState.mk [] [] [1, 2, 3]).applied ++
      flattenChunks (PumpState.mk [] [] [1, 2, 3]).channel ++
      flattenChunks (PumpState.mk [] [] [1, 2, 3]).pending =
      flattenChunks [[1, 2], [3]] ∧
    ((PumpState.mk [] [] [1, 2, 3]).pending = [] →
      (PumpState.mk [] [] [1, 2, 3]).channel = [] →
      (PumpState.mk [] [] [1, 2, 3]).applied = flattenChunks [[1, 2], [3]]) :=
  c9_pump_ordering [[1, 2], [3]] (PumpState.mk [] [] [1, 2, 3])
    (Relation.ReflTransGen.head (PumpStep.produce [1, 2] [[3]] [] [])
      (Relation.ReflTransGen.head (PumpStep.consume [1, 2] [[3]] [] [])
        (Relation.ReflTransGen.head (PumpStep.produce [3] [] [] [1, 2])
          (Relation.ReflTransGen.head (PumpStep.consume [3] [] [] [1, 2])
            Relation.ReflTransGen.refl))))

end GTerm
